import Mathlib

/-!
Shallow embedding of the iDotMatrix BLE display transport module
(`src/ble/sender.py`) and proofs of its specified properties.

Byte strings are modelled as `List Nat` (each element one byte).
`struct.pack` little-endian fields are modelled by `le w n`, the
`w`-byte little-endian encoding of `n` (`n % 256^w`); `zlib.crc32`
is modelled bit-precisely by `crc32`.
-/

namespace LedClock

/-- Little-endian byte encoding of `n` on `w` bytes (models `struct.pack`
of a value that fits the field, e.g. `"<h"`, `"<i"`, `"<I"`). -/
def le : Nat → Nat → List Nat
  | 0, _ => []
  | w + 1, n => n % 256 :: le w (n / 256)

/-- Little-endian decoding of a byte list, the inverse reading of `le`. -/
def leDec : List Nat → Nat
  | [] => 0
  | b :: bs => b + 256 * leDec bs

/-- One bit step of the reflected CRC-32 (polynomial 0xEDB88320), as
computed by `zlib.crc32`. -/
def crc32Step (r : Nat) : Nat :=
  if r % 2 = 1 then (r / 2) ^^^ 0xEDB88320 else r / 2

/-- Fold one payload byte into the CRC-32 accumulator: xor the byte in,
then run eight bit steps. -/
def crc32Byte (r b : Nat) : Nat :=
  crc32Step (crc32Step (crc32Step (crc32Step
    (crc32Step (crc32Step (crc32Step (crc32Step (r ^^^ b))))))))

/-- CRC-32 of a byte list, as computed by `zlib.crc32` (initial value
0xFFFFFFFF, final xor 0xFFFFFFFF). -/
def crc32 (bs : List Nat) : Nat :=
  (bs.foldl crc32Byte 0xFFFFFFFF) ^^^ 0xFFFFFFFF

/-- Frame-level chunk size (`IMAGE_CHUNK_SIZE = 4096` in `sender.py`). -/
def IMAGE_CHUNK_SIZE : Nat := 4096

/-- Static-image frame header built by `_build_image_payloads`:
`struct.pack("<h", len(chunk)+9)`, the fixed bytes `0x00 0x00`, the
continuation byte, and `struct.pack("<i", total_size)`. -/
def staticHeader (chunkLen total cont : Nat) : List Nat :=
  le 2 (chunkLen + 9) ++ [0x00, 0x00] ++ [cont] ++ le 4 total

/-- Animated (GIF) frame header built by `_build_gif_payloads`:
`struct.pack("<h", len(chunk)+16)`, the fixed bytes `0x01 0x00`, the
continuation byte, `struct.pack("<i", total_size)`,
`struct.pack("<I", crc)` and the trailing fixed bytes `0x05 0x00 0x0D`. -/
def gifHeader (chunkLen total crc cont : Nat) : List Nat :=
  le 2 (chunkLen + 16) ++ [0x01, 0x00] ++ [cont] ++ le 4 total ++ le 4 crc
    ++ [0x05, 0x00, 0x0D]

/-- DisplaySender._build_image_payloads: the Python loop
`for idx in range(0, total_size, IMAGE_CHUNK_SIZE)` visits offsets
`4096*i` for `i < ceil(total_size/4096)`; each iteration emits
`header + png_bytes[idx : idx+4096]`, with continuation byte `0x00`
when `idx == 0` and `0x02` otherwise. -/
def build_image_payloads (png_bytes : List Nat) : List (List Nat) :=
  let total_size := png_bytes.length
  (List.range ((total_size + (IMAGE_CHUNK_SIZE - 1)) / IMAGE_CHUNK_SIZE)).map
    fun i =>
      let idx := IMAGE_CHUNK_SIZE * i
      let chunk := (png_bytes.drop idx).take IMAGE_CHUNK_SIZE
      staticHeader chunk.length total_size (if idx = 0 then 0x00 else 0x02)
        ++ chunk

/-- DisplaySender._build_gif_payloads: same chunking loop as the static
builder; the crc field holds `zlib.crc32(gif_bytes) & 0xFFFFFFFF`
(the mask is `% 2^32`), computed once over the whole payload. -/
def build_gif_payloads (gif_bytes : List Nat) : List (List Nat) :=
  let total_size := gif_bytes.length
  let crc := crc32 gif_bytes % 2 ^ 32
  (List.range ((total_size + (IMAGE_CHUNK_SIZE - 1)) / IMAGE_CHUNK_SIZE)).map
    fun i =>
      let idx := IMAGE_CHUNK_SIZE * i
      let chunk := (gif_bytes.drop idx).take IMAGE_CHUNK_SIZE
      gifHeader chunk.length total_size crc (if idx = 0 then 0x00 else 0x02)
        ++ chunk

/-- MTU fragmentation loop of `_send_payloads`:
`pos = 0; while pos < len(payload): end = min(pos+mtu, len); payload[pos:end]`.
For `m ≥ 1` the loop runs `ceil(len/m)` times, slice `i` being
`payload[m*i : m*i+m]`.  (For `m = 0` the source loop would not
terminate; the session floors the negotiated size at 20.) -/
def fragments (m : Nat) (buf : List Nat) : List (List Nat) :=
  (List.range ((buf.length + (m - 1)) / m)).map fun i =>
    (buf.drop (m * i)).take m

/-- Ack-event state of the sender: the two `asyncio.Event`s
`_chunk_ack` and `_final_ack`. -/
structure AckState where
  chunk_ack : Bool
  final_ack : Bool
deriving DecidableEq, Repr

/-- DisplaySender._on_notify: ignore empty data; when `len(data) >= 5`
and `data[0] == 0x05`, a status code of 0, 1 or 2 sets `chunk_ack` and
a status code of 3 sets both events; anything else leaves the events
unchanged. -/
def on_notify (s : AckState) (data : List Nat) : AckState :=
  if data = [] then s
  else if 5 ≤ data.length ∧ data.headD 0 = 0x05 then
    let code := data.getD 4 0
    let s1 := if code = 0 ∨ code = 1 ∨ code = 2 then { s with chunk_ack := true } else s
    if code = 3 then { s1 with chunk_ack := true, final_ack := true } else s1
  else s

/-- Mutable session flags of `DisplaySender` that the send operations
read and write: `_connected` and `_diy_mode_active`. -/
structure SessionState where
  connected : Bool
  diy_mode_active : Bool
deriving DecidableEq, Repr

/-- Behaviour of the external transport during one call: whether the
held client still reports `is_connected`, whether a fresh `connect()`
would succeed, the negotiated max write size, which inter-frame
chunk-ack waits are answered in time, whether the end-of-sequence ack
arrives in time, the index (in order of issue) of the fragment write
that raises a transport fault (if any), and whether a plain command
write succeeds. -/
structure Env where
  live : Bool
  connectOk : Bool
  mtu : Nat
  chunkAcks : List Bool
  finalAck : Bool
  faultAt : Option Nat
  cmdWriteOk : Bool
deriving DecidableEq, Repr

/-- Observable transport actions of a send operation, in order:
a GATT write (with or without response), an `asyncio.sleep` (tenths of
a second), a bounded wait on `_chunk_ack`, and a bounded wait on
`_final_ack` (timeout in tenths of a second, plus whether the ack
arrived before the timeout). -/
inductive Action where
  | write (buf : List Nat) (response : Bool)
  | sleep (tenths : Nat)
  | waitChunk (timeoutTenths : Nat) (arrived : Bool)
  | waitFinal (timeoutTenths : Nat) (arrived : Bool)
deriving DecidableEq, Repr

/-- DisplaySender.ensure_connected: a no-op returning true when already
connected and the client reports live; otherwise one `connect()`
attempt, whose success sets `_connected` and whose failure is caught,
clears `_connected` and returns false. -/
def ensure_connected (s : SessionState) (e : Env) : SessionState × Bool :=
  if s.connected && e.live then (s, true)
  else if e.connectOk then ({ s with connected := true }, true)
  else ({ s with connected := false }, false)

/-- DisplaySender._send_command: guard with `ensure_connected`, then one
write-with-response of the command bytes; a fault from the write is
caught and turned into a false return, with no other state change. -/
def send_command (s : SessionState) (e : Env) (cmd : List Nat) :
    SessionState × List Action × Bool :=
  let g := ensure_connected s e
  if !g.2 then (g.1, [], false)
  else (g.1, [Action.write cmd true], e.cmdWriteOk)

/-- Fragment-write loop of `_send_payloads` for one frame buffer:
write each fragment without response, threading the global write
counter `k`; the write whose counter equals `e.faultAt` raises, which
aborts the remaining writes. -/
def writeFrags (faultAt : Option Nat) (k : Nat) :
    List (List Nat) → List Action × Except Unit Nat
  | [] => ([], Except.ok k)
  | c :: cs =>
      if faultAt = some k then ([], Except.error ())
      else
        let r := writeFrags faultAt (k + 1) cs
        (Action.write c false :: r.1, r.2)

/-- Per-frame loop of `_send_payloads`: for each frame, clear
`_chunk_ack` and write its MTU fragments; between frames (only when the
sequence has more than one frame and this is not the last one) wait up
to 2.0 s for `_chunk_ack`, sleeping 0.3 s after a timeout.  A fragment
write fault propagates out of the loop. -/
def sendPayloadsAux (e : Env) (multi : Bool) :
    Nat → List Bool → List (List Nat) → List Action × Except Unit Unit
  | _, _, [] => ([], Except.ok ())
  | k, acks, p :: rest =>
      let w := writeFrags e.faultAt k (fragments e.mtu p)
      match w.2 with
      | Except.error _ => (w.1, Except.error ())
      | Except.ok k' =>
          if multi && !rest.isEmpty then
            let arrived := acks.headD true
            let waitTr :=
              if arrived then [Action.waitChunk 20 true]
              else [Action.waitChunk 20 false, Action.sleep 3]
            let r := sendPayloadsAux e multi k' acks.tail rest
            (w.1 ++ waitTr ++ r.1, r.2)
          else
            let r := sendPayloadsAux e multi k' acks rest
            (w.1 ++ r.1, r.2)

/-- DisplaySender._send_payloads: runs the per-frame loop and returns
`True` on completion (a transport fault escapes to the caller). -/
def send_payloads (e : Env) (payloads : List (List Nat)) :
    List Action × Except Unit Bool :=
  let r := sendPayloadsAux e (decide (payloads.length > 1)) 0 e.chunkAcks payloads
  (r.1, r.2.map fun _ => true)

/-- Command bytes of `set_diy_mode(True)`: `bytes([5, 0, 4, 1, 1])`. -/
def diy_cmd : List Nat := [5, 0, 4, 1, 1]

/-- DisplaySender.send_image, on the already-encoded PNG bytes (the
64x64 RGB PNG conversion is done by Pillow and treated as external):
guard with `ensure_connected`; inside the try block, on the first call
issue `set_diy_mode(True)` (its own faults are swallowed inside
`_send_command`), sleep 0.3 s and set `_diy_mode_active`; encode and
send the frames; clear `_final_ack` and wait up to 1.0 s for it,
ignoring a timeout; return the `_send_payloads` result.  Any transport
fault in the body is caught, clears `_connected` and yields false. -/
def send_image (s : SessionState) (e : Env) (png_bytes : List Nat) :
    SessionState × List Action × Bool :=
  let g := ensure_connected s e
  if !g.2 then (g.1, [], false)
  else
    let s1 := g.1
    let diy :=
      if !s1.diy_mode_active then
        ({ s1 with diy_mode_active := true },
         [Action.write diy_cmd true, Action.sleep 3])
      else (s1, ([] : List Action))
    let payloads := build_image_payloads png_bytes
    let r := send_payloads e payloads
    match r.2 with
    | Except.error _ => ({ diy.1 with connected := false }, diy.2 ++ r.1, false)
    | Except.ok res =>
        (diy.1, diy.2 ++ r.1 ++ [Action.waitFinal 10 e.finalAck], res)

/-- DisplaySender.send_gif, on the already-loaded GIF bytes (file
reading and resizing are external): guard with `ensure_connected`,
encode the frames and return the `_send_payloads` result directly —
there is no `_final_ack` wait on this path.  A transport fault in the
body is caught, clears `_connected` and yields false. -/
def send_gif (s : SessionState) (e : Env) (gif_bytes : List Nat) :
    SessionState × List Action × Bool :=
  let g := ensure_connected s e
  if !g.2 then (g.1, [], false)
  else
    let payloads := build_gif_payloads gif_bytes
    let r := send_payloads e payloads
    match r.2 with
    | Except.error _ => ({ g.1 with connected := false }, r.1, false)
    | Except.ok res => (g.1, r.1, res)

/-- DisplaySender.set_brightness command bytes: the level is clamped by
`max(0, min(100, level))` and encoded as `bytes([5, 0, 4, 0x80, level])`. -/
def set_brightness_cmd (level : Int) : List Nat :=
  let l := max 0 (min 100 level)
  [5, 0, 4, 0x80, l.toNat]

/-- DisplaySender.set_fullscreen_color command bytes:
`bytes([7, 0, 2, 2, r, g, b])`. -/
def set_fullscreen_color_cmd (r g b : Nat) : List Nat := [7, 0, 2, 2, r, g, b]

/-- DisplaySender.set_brightness: clamp and send through `_send_command`. -/
def set_brightness (s : SessionState) (e : Env) (level : Int) :
    SessionState × List Action × Bool :=
  send_command s e (set_brightness_cmd level)

/-- Outcome of one `send_image` call in a session run: its action
trace, its boolean result, and whether the `ensure_connected` guard
passed. -/
structure CallOut where
  trace : List Action
  ok : Bool
  passed : Bool
deriving DecidableEq, Repr

/-- A session: one `DisplaySender` object handling a sequence of
`send_image` calls, each under its own transport behaviour. -/
def runSession (s : SessionState) :
    List (Env × List Nat) → List CallOut × SessionState
  | [] => ([], s)
  | (e, png) :: rest =>
      let passed := (ensure_connected s e).2
      let r := send_image s e png
      let rec' := runSession r.1 rest
      (⟨r.2.1, r.2.2, passed⟩ :: rec'.1, rec'.2)

/-- Test for the DIY-mode enable write in a trace. -/
def isDiyWrite (a : Action) : Bool := decide (a = Action.write diy_cmd true)

/-- Test for a `_final_ack` wait in a trace. -/
def isWaitFinal : Action → Bool
  | Action.waitFinal _ _ => true
  | _ => false

/-- The once-only DIY-enable discipline over the outcomes of a session
run, parameterised by whether the flag is already set: while the flag
is clear, every guard-failing call issues no DIY write; the first
guard-passing call issues it exactly once, as its first action,
immediately followed by the 0.3 s settle sleep; from then on (flag
set) no call ever issues it again. -/
def diyOnce : Bool → List CallOut → Bool
  | _, [] => true
  | true, o :: rest => o.trace.countP isDiyWrite == 0 && diyOnce true rest
  | false, o :: rest =>
      if o.passed then
        o.trace.countP isDiyWrite == 1
          && o.trace.head? == some (Action.write diy_cmd true)
          && o.trace.tail.head? == some (Action.sleep 3)
          && diyOnce true rest
      else o.trace.countP isDiyWrite == 0 && diyOnce false rest

theorem le_length (w : Nat) : ∀ n, (le w n).length = w := by
  induction w with
  | zero => intro n; rfl
  | succ w ih => intro n; simp [le, ih]

theorem leDec_le (w : Nat) : ∀ n, n < 256 ^ w → leDec (le w n) = n := by
  induction w with
  | zero =>
      intro n h
      simp [le, leDec]
      omega
  | succ w ih =>
      intro n h
      have h2 : n / 256 < 256 ^ w := by
        rw [Nat.div_lt_iff_lt_mul (by norm_num)]
        calc n < 256 ^ (w + 1) := h
          _ = 256 ^ w * 256 := by ring
      simp [le, leDec, ih _ h2]
      omega

theorem staticHeader_eq (c t k : Nat) :
    staticHeader c t k
      = (c + 9) % 256 :: ((c + 9) / 256) % 256 :: 0 :: 0 :: k :: le 4 t := rfl

theorem gifHeader_eq (c t r k : Nat) :
    gifHeader c t r k
      = (c + 16) % 256 :: ((c + 16) / 256) % 256 :: 1 :: 0 :: k
          :: (le 4 t ++ le 4 r ++ [5, 0, 13]) := rfl

theorem staticHeader_length (c t k : Nat) : (staticHeader c t k).length = 9 := by
  simp [staticHeader_eq, le_length]

theorem gifHeader_length (c t r k : Nat) : (gifHeader c t r k).length = 16 := by
  simp [gifHeader_eq, le_length]

theorem fragments_nil (m : Nat) : fragments m [] = [] := by
  unfold fragments
  have h : (m - 1) / m = 0 := by
    rcases Nat.eq_zero_or_pos m with rfl | hm
    · rfl
    · exact Nat.div_eq_of_lt (by omega)
  simp [h]

theorem fragments_cons (m : Nat) (bs : List Nat) (hm : 1 ≤ m) (hbs : bs ≠ []) :
    fragments m bs = bs.take m :: fragments m (bs.drop m) := by
  have hL : 1 ≤ bs.length := List.length_pos.mpr hbs
  have hdrop : (bs.drop m).length = bs.length - m := List.length_drop m bs
  have hn : (bs.length + (m - 1)) / m = ((bs.drop m).length + (m - 1)) / m + 1 := by
    rw [hdrop]
    rcases le_or_lt m bs.length with h | h
    · have he : bs.length + (m - 1) = (bs.length - m + (m - 1)) + m := by omega
      rw [he, Nat.add_div_right _ (by omega)]
    · have h1 : bs.length - m = 0 := by omega
      have h2 : (bs.length + (m - 1)) / m = 1 :=
        Nat.div_eq_of_lt_le (by omega) (by omega)
      have h3 : (0 + (m - 1)) / m = 0 := Nat.div_eq_of_lt (by omega)
      rw [h1, h2, h3]
  unfold fragments
  rw [hn, List.range_succ_eq_map, List.map_cons, List.map_map]
  refine congrArg₂ List.cons (by simp) ?_
  apply List.map_congr_left
  intro i _
  simp only [Function.comp_apply, Nat.succ_eq_add_one, List.drop_drop]
  have he : m * (i + 1) = m + m * i := by ring
  rw [he]

theorem fragments_flatten_aux (m : Nat) (hm : 1 ≤ m) :
    ∀ (fuel : Nat) (bs : List Nat), bs.length ≤ fuel →
      (fragments m bs).flatten = bs := by
  intro fuel
  induction fuel with
  | zero =>
      intro bs h
      have hb : bs = [] := List.length_eq_zero.mp (Nat.le_zero.mp h)
      subst hb
      simp [fragments_nil]
  | succ n ih =>
      intro bs h
      rcases eq_or_ne bs [] with rfl | hbs
      · simp [fragments_nil]
      · rw [fragments_cons m bs hm hbs]
        have hlen : (bs.drop m).length ≤ n := by
          have hL : 0 < bs.length := List.length_pos.mpr hbs
          simp only [List.length_drop]
          omega
        rw [List.flatten_cons, ih _ hlen, List.take_append_drop]

theorem fragments_flatten (m : Nat) (hm : 1 ≤ m) (bs : List Nat) :
    (fragments m bs).flatten = bs :=
  fragments_flatten_aux m hm bs.length bs le_rfl

theorem fragments_length_le (m : Nat) (bs : List Nat) :
    ∀ f ∈ fragments m bs, f.length ≤ m := by
  intro f hf
  unfold fragments at hf
  rcases List.mem_map.mp hf with ⟨i, _, rfl⟩
  rw [List.length_take]
  exact min_le_left _ _

theorem fragments_dropLast_aux (m : Nat) (hm : 1 ≤ m) :
    ∀ (fuel : Nat) (bs : List Nat), bs.length ≤ fuel →
      ∀ f ∈ (fragments m bs).dropLast, f.length = m := by
  intro fuel
  induction fuel with
  | zero =>
      intro bs h f hf
      have hb : bs = [] := List.length_eq_zero.mp (Nat.le_zero.mp h)
      subst hb
      simp [fragments_nil] at hf
  | succ n ih =>
      intro bs h f hf
      rcases eq_or_ne bs [] with rfl | hbs
      · simp [fragments_nil] at hf
      · rw [fragments_cons m bs hm hbs] at hf
        rcases eq_or_ne (bs.drop m) [] with hd | hd
        · rw [hd, fragments_nil] at hf
          simp at hf
        · have hfrag : fragments m (bs.drop m) ≠ [] := by
            rw [fragments_cons m _ hm hd]
            exact List.cons_ne_nil _ _
          rw [List.dropLast_cons_of_ne_nil hfrag] at hf
          have hlen : (bs.drop m).length ≤ n := by
            have hL : 0 < bs.length := List.length_pos.mpr hbs
            simp only [List.length_drop]
            omega
          rcases List.mem_cons.mp hf with rfl | hf'
          · have hmL : m < bs.length := by
              by_contra hc
              exact hd (List.drop_eq_nil_of_le (by omega))
            rw [List.length_take]
            omega
          · exact ih _ hlen f hf'

theorem build_image_payloads_eq (bs : List Nat) :
    build_image_payloads bs
      = (List.range ((bs.length + 4095) / 4096)).map fun i =>
          staticHeader ((bs.drop (4096 * i)).take 4096).length bs.length
            (if 4096 * i = 0 then 0 else 2)
            ++ (bs.drop (4096 * i)).take 4096 := rfl

theorem build_gif_payloads_eq (bs : List Nat) :
    build_gif_payloads bs
      = (List.range ((bs.length + 4095) / 4096)).map fun i =>
          gifHeader ((bs.drop (4096 * i)).take 4096).length bs.length
            (crc32 bs % 2 ^ 32) (if 4096 * i = 0 then 0 else 2)
            ++ (bs.drop (4096 * i)).take 4096 := rfl

theorem mem_build_image_payloads {bs f : List Nat}
    (hf : f ∈ build_image_payloads bs) :
    ∃ c k, (k = 0 ∨ k = 2) ∧ c.length ≤ 4096
      ∧ f = staticHeader c.length bs.length k ++ c := by
  rw [build_image_payloads_eq] at hf
  rcases List.mem_map.mp hf with ⟨i, _, rfl⟩
  refine ⟨(bs.drop (4096 * i)).take 4096, if 4096 * i = 0 then 0 else 2, ?_, ?_, rfl⟩
  · split
    · exact Or.inl rfl
    · exact Or.inr rfl
  · rw [List.length_take]
    exact min_le_left _ _

theorem mem_build_gif_payloads {bs f : List Nat}
    (hf : f ∈ build_gif_payloads bs) :
    ∃ c k, (k = 0 ∨ k = 2) ∧ c.length ≤ 4096
      ∧ f = gifHeader c.length bs.length (crc32 bs % 2 ^ 32) k ++ c := by
  rw [build_gif_payloads_eq] at hf
  rcases List.mem_map.mp hf with ⟨i, _, rfl⟩
  refine ⟨(bs.drop (4096 * i)).take 4096, if 4096 * i = 0 then 0 else 2, ?_, ?_, rfl⟩
  · split
    · exact Or.inl rfl
    · exact Or.inr rfl
  · rw [List.length_take]
    exact min_le_left _ _

theorem getD2_cons_append (b0 b1 x : Nat) (rest c : List Nat) :
    ((b0 :: b1 :: x :: rest) ++ c).getD 2 0 = x := rfl

theorem getD3_cons_append (b0 b1 b2 x : Nat) (rest c : List Nat) :
    ((b0 :: b1 :: b2 :: x :: rest) ++ c).getD 3 0 = x := rfl

theorem getD4_cons_append (b0 b1 b2 b3 x : Nat) (rest c : List Nat) :
    ((b0 :: b1 :: b2 :: b3 :: x :: rest) ++ c).getD 4 0 = x := rfl

theorem drop5_cons_append (b0 b1 b2 b3 b4 : Nat) (rest c : List Nat) :
    ((b0 :: b1 :: b2 :: b3 :: b4 :: rest) ++ c).drop 5 = rest ++ c := rfl

theorem take2_cons_append (b0 b1 : Nat) (rest c : List Nat) :
    ((b0 :: b1 :: rest) ++ c).take 2 = [b0, b1] := rfl

theorem leDec_pair (b0 b1 : Nat) : leDec [b0, b1] = b0 + 256 * b1 := by
  simp [leDec]

theorem build_image_payloads_chunk_lengths (bs : List Nat) :
    (build_image_payloads bs).map (fun f => f.length - 9)
      = (fragments 4096 bs).map List.length := by
  rw [build_image_payloads_eq]
  unfold fragments
  rw [List.map_map, List.map_map]
  have hn : (bs.length + (4096 - 1)) / 4096 = (bs.length + 4095) / 4096 := by norm_num
  rw [hn]
  apply List.map_congr_left
  intro i _
  simp [staticHeader_length]

theorem build_gif_payloads_chunk_lengths (bs : List Nat) :
    (build_gif_payloads bs).map (fun f => f.length - 16)
      = (fragments 4096 bs).map List.length := by
  rw [build_gif_payloads_eq]
  unfold fragments
  rw [List.map_map, List.map_map]
  have hn : (bs.length + (4096 - 1)) / 4096 = (bs.length + 4095) / 4096 := by norm_num
  rw [hn]
  apply List.map_congr_left
  intro i _
  simp [gifHeader_length]

theorem build_image_payloads_sum (bs : List Nat) :
    ((build_image_payloads bs).map fun f => f.length - 9).sum = bs.length := by
  rw [build_image_payloads_chunk_lengths, ← List.length_flatten,
    fragments_flatten 4096 (by norm_num) bs]

theorem build_gif_payloads_sum (bs : List Nat) :
    ((build_gif_payloads bs).map fun f => f.length - 16).sum = bs.length := by
  rw [build_gif_payloads_chunk_lengths, ← List.length_flatten,
    fragments_flatten 4096 (by norm_num) bs]

theorem build_image_payloads_cont (bs : List Nat) (i : Nat)
    (h : i < (build_image_payloads bs).length) :
    ((build_image_payloads bs).get ⟨i, h⟩).getD 4 0 = if i = 0 then 0 else 2 := by
  rw [List.get_eq_getElem]
  simp only [build_image_payloads_eq, List.getElem_map, List.getElem_range]
  rw [staticHeader_eq, getD4_cons_append]
  by_cases hi : i = 0
  · simp [hi]
  · simp [hi]

theorem build_gif_payloads_cont (bs : List Nat) (i : Nat)
    (h : i < (build_gif_payloads bs).length) :
    ((build_gif_payloads bs).get ⟨i, h⟩).getD 4 0 = if i = 0 then 0 else 2 := by
  rw [List.get_eq_getElem]
  simp only [build_gif_payloads_eq, List.getElem_map, List.getElem_range]
  rw [gifHeader_eq, getD4_cons_append]
  by_cases hi : i = 0
  · simp [hi]
  · simp [hi]

theorem staticFrame_take2 (cl t k : Nat) (c : List Nat) :
    (staticHeader cl t k ++ c).take 2 = le 2 (cl + 9) := rfl

theorem staticFrame_total (cl t k : Nat) (c : List Nat) :
    ((staticHeader cl t k ++ c).drop 5).take 4 = le 4 t := rfl

theorem staticFrame_cont (cl t k : Nat) (c : List Nat) :
    (staticHeader cl t k ++ c).getD 4 0 = k := rfl

theorem gifFrame_take2 (cl t r k : Nat) (c : List Nat) :
    (gifHeader cl t r k ++ c).take 2 = le 2 (cl + 16) := rfl

theorem gifFrame_b2 (cl t r k : Nat) (c : List Nat) :
    (gifHeader cl t r k ++ c).getD 2 0 = 1 := rfl

theorem gifFrame_b3 (cl t r k : Nat) (c : List Nat) :
    (gifHeader cl t r k ++ c).getD 3 0 = 0 := rfl

theorem gifFrame_cont (cl t r k : Nat) (c : List Nat) :
    (gifHeader cl t r k ++ c).getD 4 0 = k := rfl

theorem gifFrame_total (cl t r k : Nat) (c : List Nat) :
    ((gifHeader cl t r k ++ c).drop 5).take 4 = le 4 t := rfl

theorem gifFrame_crc (cl t r k : Nat) (c : List Nat) :
    ((gifHeader cl t r k ++ c).drop 9).take 4 = le 4 r := rfl

theorem gifFrame_tail (cl t r k : Nat) (c : List Nat) :
    ((gifHeader cl t r k ++ c).drop 13).take 3 = [0x05, 0x00, 0x0D] := rfl

/-- C1: for every payload and chunk size 4096, both frame encoders
(`_build_image_payloads` and `_build_gif_payloads`) produce exactly
`ceil(P/4096)` frames, the chunk-payload lengths (frame length minus
the 9- resp. 16-byte header) sum exactly to `P`, the 4-byte
little-endian `total_size` field at offset 5 decodes to `P` in every
frame, and the continuation byte at offset 4 is 0 for the frame whose
chunk starts at payload offset 0 (index 0) and 2 for all others.
The size bound matches the range of the `struct.pack("<i", total_size)`
field. -/
theorem C1_frame_encoder (bs : List Nat) (hsize : bs.length < 2 ^ 31) :
    ((build_image_payloads bs).length = (bs.length + 4095) / 4096
      ∧ ((build_image_payloads bs).map fun f => f.length - 9).sum = bs.length
      ∧ (∀ f ∈ build_image_payloads bs, leDec ((f.drop 5).take 4) = bs.length)
      ∧ ∀ i (h : i < (build_image_payloads bs).length),
          ((build_image_payloads bs).get ⟨i, h⟩).getD 4 0 = if i = 0 then 0 else 2)
    ∧ ((build_gif_payloads bs).length = (bs.length + 4095) / 4096
      ∧ ((build_gif_payloads bs).map fun f => f.length - 16).sum = bs.length
      ∧ (∀ f ∈ build_gif_payloads bs, leDec ((f.drop 5).take 4) = bs.length)
      ∧ ∀ i (h : i < (build_gif_payloads bs).length),
          ((build_gif_payloads bs).get ⟨i, h⟩).getD 4 0 = if i = 0 then 0 else 2) := by
  have h256 : bs.length < 256 ^ 4 := lt_trans hsize (by norm_num)
  refine ⟨⟨?_, build_image_payloads_sum bs, ?_, build_image_payloads_cont bs⟩,
      ?_, build_gif_payloads_sum bs, ?_, build_gif_payloads_cont bs⟩
  · rw [build_image_payloads_eq]
    simp
  · intro f hf
    rcases mem_build_image_payloads hf with ⟨c, k, _, _, rfl⟩
    rw [staticFrame_total, leDec_le 4 _ h256]
  · rw [build_gif_payloads_eq]
    simp
  · intro f hf
    rcases mem_build_gif_payloads hf with ⟨c, k, _, _, rfl⟩
    rw [gifFrame_total, leDec_le 4 _ h256]

theorem C1_frame_encoder_witness :
    ([1, 2, 3] : List Nat).length < 2 ^ 31
    ∧ (build_image_payloads [1, 2, 3]).length
        = (([1, 2, 3] : List Nat).length + 4095) / 4096 :=
  ⟨by norm_num, (C1_frame_encoder [1, 2, 3] (by norm_num)).1.1⟩

/-- C2: for every frame buffer and negotiated max write size `M ≥ 20`,
the fragmentation loop of `_send_payloads` produces slices that
concatenate back to exactly the original buffer (so they are in strict
offset order with no gaps or overlaps), each slice is at most `M`
bytes, and when the buffer is longer than `M` every slice except the
last is exactly `M` bytes. -/
theorem C2_fragmenter (m : Nat) (buf : List Nat) (hm : 20 ≤ m) :
    (fragments m buf).flatten = buf
    ∧ (∀ f ∈ fragments m buf, f.length ≤ m)
    ∧ (m < buf.length → ∀ f ∈ (fragments m buf).dropLast, f.length = m) := by
  have hm1 : 1 ≤ m := by omega
  exact ⟨fragments_flatten m hm1 buf, fragments_length_le m buf,
    fun _ => fragments_dropLast_aux m hm1 buf.length buf le_rfl⟩

theorem C2_fragmenter_witness :
    (20 : Nat) ≤ 20 ∧ (fragments 20 (List.range 25)).flatten = List.range 25 :=
  ⟨by norm_num, (C2_fragmenter 20 (List.range 25) (by norm_num)).1⟩

/-- C3: every frame emitted by `_build_gif_payloads` carries the exact
16-byte header layout — u16 LE `len(chunk)+16`, `0x01`, `0x00`, the
continuation byte (0 or 2), u32 LE `total_size`, u32 LE crc32, then
`0x05 0x00 0x0D` — and the crc32 field decodes to
`zlib.crc32(full_payload) & 0xFFFFFFFF`, the same constant in every
frame of the payload (each frame's field equals that one value). -/
theorem C3_gif_crc_header (gif : List Nat) (hsize : gif.length < 2 ^ 31) :
    ∀ f ∈ build_gif_payloads gif,
      16 ≤ f.length
      ∧ leDec (f.take 2) = (f.length - 16) + 16
      ∧ f.getD 2 0 = 1
      ∧ f.getD 3 0 = 0
      ∧ (f.getD 4 0 = 0 ∨ f.getD 4 0 = 2)
      ∧ leDec ((f.drop 5).take 4) = gif.length
      ∧ leDec ((f.drop 9).take 4) = crc32 gif % 2 ^ 32
      ∧ (f.drop 13).take 3 = [0x05, 0x00, 0x0D] := by
  intro f hf
  have h256 : gif.length < 256 ^ 4 := lt_trans hsize (by norm_num)
  rcases mem_build_gif_payloads hf with ⟨c, k, hk, hc, rfl⟩
  have hlen : (gifHeader c.length gif.length (crc32 gif % 2 ^ 32) k ++ c).length
      = 16 + c.length := by
    rw [List.length_append, gifHeader_length]
  refine ⟨by omega, ?_, gifFrame_b2 _ _ _ _ _, gifFrame_b3 _ _ _ _ _, ?_, ?_, ?_,
    gifFrame_tail _ _ _ _ _⟩
  · have h2 : c.length + 16 < 256 ^ 2 := by
      rw [show (256 : Nat) ^ 2 = 65536 from by norm_num]
      omega
    rw [gifFrame_take2, hlen, leDec_le 2 _ h2]
    omega
  · rw [gifFrame_cont]
    exact hk
  · rw [gifFrame_total, leDec_le 4 _ h256]
  · have h32 : crc32 gif % 2 ^ 32 < 256 ^ 4 := by
      rw [show (256 : Nat) ^ 4 = 2 ^ 32 from by norm_num]
      exact Nat.mod_lt _ (by norm_num)
    rw [gifFrame_crc, leDec_le 4 _ h32]

theorem C3_gif_crc_header_witness :
    ([1, 2, 3] : List Nat).length < 2 ^ 31
    ∧ [19, 0, 1, 0, 0, 3, 0, 0, 0, 29, 128, 188, 85, 5, 0, 13, 1, 2, 3]
        ∈ build_gif_payloads [1, 2, 3]
    ∧ leDec ((([19, 0, 1, 0, 0, 3, 0, 0, 0, 29, 128, 188, 85, 5, 0, 13, 1, 2, 3] :
        List Nat).drop 9).take 4) = crc32 [1, 2, 3] % 2 ^ 32 :=
  ⟨by norm_num, by decide,
    (C3_gif_crc_header [1, 2, 3] (by norm_num) _ (by decide)).2.2.2.2.2.2.1⟩

/-- C7 counterexample: encoding an empty payload does not yield a
single frame — `_build_image_payloads(b"")` iterates
`range(0, 0, 4096)`, which is empty, so it yields no frames at all. -/
theorem C7_counterexample : (build_image_payloads []).length ≠ 1 := by decide

/-- C7 (amended): encoding an empty payload yields no frames: both
encoders return an empty frame list for a 0-byte payload. -/
theorem C7_empty_payload :
    build_image_payloads [] = [] ∧ build_gif_payloads [] = [] := by
  constructor
  · decide
  · decide

/-- C10: in every frame emitted by either encoder, the leading 2-byte
little-endian length field decodes to the total byte length of the
whole frame buffer (header plus chunk): the static header is 9 bytes
and the field holds `len(chunk)+9`; the animated header is 16 bytes
and the field holds `len(chunk)+16`. -/
theorem C10_length_field (bs : List Nat) :
    (∀ f ∈ build_image_payloads bs, 9 ≤ f.length ∧ leDec (f.take 2) = f.length)
    ∧ (∀ f ∈ build_gif_payloads bs, 16 ≤ f.length ∧ leDec (f.take 2) = f.length) := by
  constructor
  · intro f hf
    rcases mem_build_image_payloads hf with ⟨c, k, _, hc, rfl⟩
    have hlen : (staticHeader c.length bs.length k ++ c).length = 9 + c.length := by
      rw [List.length_append, staticHeader_length]
    have h2 : c.length + 9 < 256 ^ 2 := by
      rw [show (256 : Nat) ^ 2 = 65536 from by norm_num]
      omega
    constructor
    · omega
    · rw [staticFrame_take2, hlen, leDec_le 2 _ h2]
      omega
  · intro f hf
    rcases mem_build_gif_payloads hf with ⟨c, k, _, hc, rfl⟩
    have hlen : (gifHeader c.length bs.length (crc32 bs % 2 ^ 32) k ++ c).length
        = 16 + c.length := by
      rw [List.length_append, gifHeader_length]
    have h2 : c.length + 16 < 256 ^ 2 := by
      rw [show (256 : Nat) ^ 2 = 65536 from by norm_num]
      omega
    constructor
    · omega
    · rw [gifFrame_take2, hlen, leDec_le 2 _ h2]
      omega

theorem C10_length_field_witness :
    [12, 0, 0, 0, 0, 3, 0, 0, 0, 7, 7, 7] ∈ build_image_payloads [7, 7, 7]
    ∧ leDec (([12, 0, 0, 0, 0, 3, 0, 0, 0, 7, 7, 7] : List Nat).take 2)
        = ([12, 0, 0, 0, 0, 3, 0, 0, 0, 7, 7, 7] : List Nat).length :=
  ⟨by decide, ((C10_length_field [7, 7, 7]).1 _ (by decide)).2⟩

/-- C4: for every notification buffer delivered to `_on_notify`: a
buffer of at least 5 bytes whose first byte is 0x05 and whose fifth
byte is 3 sets both `_chunk_ack` and `_final_ack`; a fifth byte of 0,
1 or 2 sets only `_chunk_ack` (leaving `_final_ack` as it was); and a
buffer shorter than 5 bytes, or whose first byte is not 0x05, changes
neither event. -/
theorem C4_on_notify (s : AckState) (data : List Nat) :
    (5 ≤ data.length → data.headD 0 = 5 → data.getD 4 0 = 3 →
      on_notify s data = ⟨true, true⟩)
    ∧ (5 ≤ data.length → data.headD 0 = 5 →
        (data.getD 4 0 = 0 ∨ data.getD 4 0 = 1 ∨ data.getD 4 0 = 2) →
        on_notify s data = ⟨true, s.final_ack⟩)
    ∧ ((data.length < 5 ∨ data.headD 0 ≠ 5) → on_notify s data = s) := by
  refine ⟨?_, ?_, ?_⟩
  · intro h1 h2 h3
    have hne : data ≠ [] := by
      intro h
      subst h
      simp at h1
    have h2' : data.head?.getD 0 = 5 := by simpa using h2
    have h3' : data[4]?.getD 0 = 3 := by simpa using h3
    simp [on_notify, hne, h1, h2', h3']
  · intro h1 h2 h3
    have hne : data ≠ [] := by
      intro h
      subst h
      simp at h1
    have h2' : data.head?.getD 0 = 5 := by simpa using h2
    rcases h3 with h3 | h3 | h3 <;>
      · have h3' := h3
        simp only [List.getD_eq_getElem?_getD] at h3'
        simp [on_notify, hne, h1, h2', h3']
  · intro h
    unfold on_notify
    split
    · rfl
    · split
      · next hcond =>
          rcases h with h | h
          · exact absurd hcond.1 (by omega)
          · exact absurd hcond.2 h
      · rfl

theorem C4_on_notify_witness :
    (5 ≤ ([5, 0, 0, 0, 3] : List Nat).length
      ∧ ([5, 0, 0, 0, 3] : List Nat).headD 0 = 5
      ∧ ([5, 0, 0, 0, 3] : List Nat).getD 4 0 = 3)
    ∧ on_notify ⟨false, false⟩ [5, 0, 0, 0, 3] = ⟨true, true⟩ :=
  ⟨⟨by decide, by decide, by decide⟩,
    (C4_on_notify ⟨false, false⟩ [5, 0, 0, 0, 3]).1 (by decide) (by decide) (by decide)⟩

/-- C9: `set_brightness` clamps its integer argument into 0..100 with
`max(0, min(100, level))` before encoding, and emits the 5-byte
command buffer `[5, 0, 4, 0x80, clamped]`; in particular level 150
encodes 100 and level -5 encodes 0. -/
theorem C9_brightness (level : Int) :
    set_brightness_cmd level = [5, 0, 4, 0x80, (max 0 (min 100 level)).toNat]
    ∧ (max 0 (min 100 level)).toNat ≤ 100
    ∧ (100 ≤ level → (max 0 (min 100 level)).toNat = 100)
    ∧ (level ≤ 0 → (max 0 (min 100 level)).toNat = 0)
    ∧ (0 ≤ level → level ≤ 100 → ((max 0 (min 100 level)).toNat : Int) = level)
    ∧ set_brightness_cmd 150 = [5, 0, 4, 0x80, 100]
    ∧ set_brightness_cmd (-5) = [5, 0, 4, 0x80, 0] := by
  refine ⟨rfl, ?_, ?_, ?_, ?_, by decide, by decide⟩
  · omega
  · intro h
    omega
  · intro h
    omega
  · intro h1 h2
    omega

theorem C9_brightness_witness :
    set_brightness_cmd 150 = [5, 0, 4, 0x80, 100]
    ∧ set_brightness_cmd (-5) = [5, 0, 4, 0x80, 0]
    ∧ (100 ≤ (150 : Int) ∧ (max 0 (min 100 (150 : Int))).toNat = 100) :=
  ⟨(C9_brightness 150).2.2.2.2.2.1, (C9_brightness (-5)).2.2.2.2.2.2,
    by decide, (C9_brightness 150).2.2.1 (by decide)⟩

theorem writeFrags_none : ∀ (frs : List (List Nat)) (k : Nat),
    writeFrags none k frs
      = (frs.map fun c => Action.write c false, Except.ok (k + frs.length)) := by
  intro frs
  induction frs with
  | nil => intro k; rfl
  | cons c cs ih =>
      intro k
      unfold writeFrags
      simp [ih (k + 1)]
      omega

theorem writeFrags_error (j : Nat) : ∀ (frs : List (List Nat)) (k : Nat),
    k ≤ j → j < k + frs.length →
    (writeFrags (some j) k frs).2 = Except.error () := by
  intro frs
  induction frs with
  | nil =>
      intro k h1 h2
      simp at h2
      omega
  | cons c cs ih =>
      intro k h1 h2
      unfold writeFrags
      by_cases hk : j = k
      · simp [hk]
      · have hne : ¬ (some j = some k) := by simp [hk]
        simp only [hne, if_neg, if_false]
        exact ih (k + 1) (by omega) (by simp at h2 ⊢; omega)

theorem writeFrags_ok_counter : ∀ (frs : List (List Nat)) (fa : Option Nat) (k k' : Nat),
    (writeFrags fa k frs).2 = Except.ok k' → k' = k + frs.length := by
  intro frs
  induction frs with
  | nil =>
      intro fa k k' h
      simp [writeFrags] at h
      simp only [List.length_nil, Nat.add_zero]
      omega
  | cons c cs ih =>
      intro fa k k' h
      unfold writeFrags at h
      split at h
      · simp at h
      · simp only [] at h
        have := ih fa (k + 1) k' h
        simp only [List.length_cons]
        omega

theorem writeFrags_countP (p : Action → Bool)
    (hw : ∀ c, p (Action.write c false) = false) :
    ∀ (frs : List (List Nat)) (fa : Option Nat) (k : Nat),
      (writeFrags fa k frs).1.countP p = 0 := by
  intro frs
  induction frs with
  | nil => intro fa k; rfl
  | cons c cs ih =>
      intro fa k
      unfold writeFrags
      split
      · rfl
      · simp [List.countP_cons, hw, ih fa (k + 1)]

theorem sendPayloadsAux_none (e : Env) (he : e.faultAt = none) (multi : Bool) :
    ∀ (payloads : List (List Nat)) (k : Nat) (acks : List Bool),
      (sendPayloadsAux e multi k acks payloads).2 = Except.ok () := by
  intro payloads
  induction payloads with
  | nil => intro k acks; rfl
  | cons p rest ih =>
      intro k acks
      unfold sendPayloadsAux
      rw [he, writeFrags_none]
      split <;> simp [ih]

theorem writeFrags_ok_out (j : Nat) : ∀ (frs : List (List Nat)) (k : Nat),
    (j < k ∨ k + frs.length ≤ j) →
    (writeFrags (some j) k frs).2 = Except.ok (k + frs.length) := by
  intro frs
  induction frs with
  | nil =>
      intro k _
      simp [writeFrags]
  | cons c cs ih =>
      intro k h
      have hjk : j ≠ k := by
        rcases h with h | h
        · omega
        · simp at h
          omega
      have hcond : j < k + 1 ∨ k + 1 + cs.length ≤ j := by
        rcases h with h | h
        · exact Or.inl (by omega)
        · right
          simp at h
          omega
      have hrec := ih (k + 1) hcond
      unfold writeFrags
      rw [if_neg (by simp [hjk])]
      show (writeFrags (some j) (k + 1) cs).2 = Except.ok (k + (c :: cs).length)
      rw [hrec]
      congr 1
      simp only [List.length_cons]
      omega

theorem sendPayloadsAux_error (e : Env) (multi : Bool) (j : Nat) :
    ∀ (payloads : List (List Nat)) (k : Nat) (acks : List Bool),
      k ≤ j →
      j < k + (payloads.map fun p => (fragments e.mtu p).length).sum →
      e.faultAt = some j →
      (sendPayloadsAux e multi k acks payloads).2 = Except.error () := by
  intro payloads
  induction payloads with
  | nil =>
      intro k acks h1 h2 hf
      simp at h2
      omega
  | cons p rest ih =>
      intro k acks h1 h2 hf
      rw [List.map_cons, List.sum_cons] at h2
      by_cases hj : j < k + (fragments e.mtu p).length
      · simp [sendPayloadsAux, hf, writeFrags_error j (fragments e.mtu p) k h1 hj]
      · have hok := writeFrags_ok_out j (fragments e.mtu p) k (Or.inr (by omega))
        simp only [sendPayloadsAux, hf, hok]
        split
        · exact ih (k + (fragments e.mtu p).length) acks.tail (by omega) (by omega) hf
        · exact ih (k + (fragments e.mtu p).length) acks (by omega) (by omega) hf

theorem sendPayloadsAux_countP (p : Action → Bool)
    (hw : ∀ c, p (Action.write c false) = false)
    (hwc : ∀ t a, p (Action.waitChunk t a) = false)
    (hs : ∀ t, p (Action.sleep t) = false)
    (e : Env) (multi : Bool) :
    ∀ (payloads : List (List Nat)) (k : Nat) (acks : List Bool),
      (sendPayloadsAux e multi k acks payloads).1.countP p = 0 := by
  intro payloads
  induction payloads with
  | nil => intro k acks; rfl
  | cons q rest ih =>
      intro k acks
      unfold sendPayloadsAux
      cases hwf : (writeFrags e.faultAt k (fragments e.mtu q)).2 with
      | error u =>
          simp [hwf, writeFrags_countP p hw]
      | ok k' =>
          simp only [hwf]
          split
          · rcases hack : acks.headD true with hh | hh <;>
              simp [hack, List.countP_append, writeFrags_countP p hw, hwc, hs, ih]
          · simp [List.countP_append, writeFrags_countP p hw, ih]

theorem ensure_connected_diy (s : SessionState) (e : Env) :
    (ensure_connected s e).1.diy_mode_active = s.diy_mode_active := by
  unfold ensure_connected
  split
  · rfl
  · split <;> rfl

theorem send_payloads_none_ok (e : Env) (he : e.faultAt = none)
    (payloads : List (List Nat)) :
    (send_payloads e payloads).2 = Except.ok true := by
  show Except.map (fun _ => true)
      (sendPayloadsAux e (decide (payloads.length > 1)) 0 e.chunkAcks payloads).2
    = Except.ok true
  rw [sendPayloadsAux_none e he]
  rfl

theorem send_payloads_error (e : Env) (j : Nat) (payloads : List (List Nat))
    (hf : e.faultAt = some j)
    (hj : j < (payloads.map fun p => (fragments e.mtu p).length).sum) :
    (send_payloads e payloads).2 = Except.error () := by
  show Except.map (fun _ => true)
      (sendPayloadsAux e (decide (payloads.length > 1)) 0 e.chunkAcks payloads).2
    = Except.error ()
  rw [sendPayloadsAux_error e _ j payloads 0 e.chunkAcks (by omega) (by omega) hf]
  rfl

theorem isWaitFinal_write (c : List Nat) (b : Bool) :
    isWaitFinal (Action.write c b) = false := rfl

theorem isDiyWrite_write_false (c : List Nat) :
    isDiyWrite (Action.write c false) = false := by
  simp [isDiyWrite]

theorem send_payloads_countP (p : Action → Bool)
    (hw : ∀ c, p (Action.write c false) = false)
    (hwc : ∀ t a, p (Action.waitChunk t a) = false)
    (hs : ∀ t, p (Action.sleep t) = false)
    (e : Env) (payloads : List (List Nat)) :
    (send_payloads e payloads).1.countP p = 0 := by
  unfold send_payloads
  exact sendPayloadsAux_countP p hw hwc hs e _ payloads 0 e.chunkAcks

theorem send_image_ok_shape (s : SessionState) (e : Env) (png : List Nat)
    (hguard : (ensure_connected s e).2 = true)
    (hok : (send_payloads e (build_image_payloads png)).2 = Except.ok true) :
    (send_image s e png).2.1
      = (if (ensure_connected s e).1.diy_mode_active then ([] : List Action)
          else [Action.write diy_cmd true, Action.sleep 3])
        ++ (send_payloads e (build_image_payloads png)).1
        ++ [Action.waitFinal 10 e.finalAck]
    ∧ (send_image s e png).2.2 = true := by
  by_cases hd : (ensure_connected s e).1.diy_mode_active <;>
    simp [send_image, hguard, hok, hd]

theorem send_image_err_shape (s : SessionState) (e : Env) (png : List Nat)
    (hguard : (ensure_connected s e).2 = true)
    (herr : (send_payloads e (build_image_payloads png)).2 = Except.error ()) :
    (send_image s e png).1.connected = false
    ∧ (send_image s e png).2.2 = false := by
  by_cases hd : (ensure_connected s e).1.diy_mode_active <;>
    simp [send_image, hguard, herr, hd]

/-- C5 (amended): for `send_image`, a transport fault raised by a
fragment write inside the write/ack sequence is caught in the call,
`_connected` is cleared (the session is marked Disconnected), and the
call returns false; for `_send_command`, a faulting command write is
likewise caught and the call returns false, but the connected flag is
left exactly as the connection guard left it (the session is not
marked Disconnected).  In both cases the caller receives only a
boolean. -/
theorem C5_fault_handling (s : SessionState) (e : Env) (png cmd : List Nat) (j : Nat)
    (hguard : (ensure_connected s e).2 = true)
    (hfault : e.faultAt = some j)
    (hj : j < ((build_image_payloads png).map fun p => (fragments e.mtu p).length).sum)
    (hcmd : e.cmdWriteOk = false) :
    ((send_image s e png).1.connected = false ∧ (send_image s e png).2.2 = false)
    ∧ ((send_command s e cmd).2.2 = false
        ∧ (send_command s e cmd).1 = (ensure_connected s e).1) := by
  have herr := send_payloads_error e j (build_image_payloads png) hfault hj
  refine ⟨send_image_err_shape s e png hguard herr, ?_, ?_⟩
  · simp [send_command, hguard, hcmd]
  · simp [send_command, hguard]

/-- C5 counterexample: on a live, connected session, a transport fault
during a `_send_command` write (here the fill-color command) is caught
and the call returns false, but `_connected` remains true — the code
does not mark the session Disconnected on the command path, contrary
to the claim. -/
theorem C5_counterexample :
    (send_command ⟨true, true⟩ ⟨true, true, 20, [], false, none, false⟩
        [7, 0, 2, 2, 0, 0, 0]).2.2 = false
    ∧ (send_command ⟨true, true⟩ ⟨true, true, 20, [], false, none, false⟩
        [7, 0, 2, 2, 0, 0, 0]).1.connected = true := by
  constructor
  · rfl
  · rfl

theorem C5_fault_handling_witness :
    ((ensure_connected ⟨true, false⟩ ⟨true, true, 20, [], false, some 0, false⟩).2 = true
      ∧ (⟨true, true, 20, [], false, some 0, false⟩ : Env).faultAt = some 0
      ∧ 0 < ((build_image_payloads [1]).map fun p =>
          (fragments (⟨true, true, 20, [], false, some 0, false⟩ : Env).mtu p).length).sum)
    ∧ (send_image ⟨true, false⟩ ⟨true, true, 20, [], false, some 0, false⟩
        [1]).1.connected = false :=
  ⟨⟨by decide, rfl, by decide⟩,
    (C5_fault_handling ⟨true, false⟩ ⟨true, true, 20, [], false, some 0, false⟩
      [1] [3, 0, 10] 0 (by decide) rfl (by decide) rfl).1.1⟩

/-- C6 (amended): a static-image send that passes the connection guard
and suffers no transport fault performs exactly one bounded wait
(1.0 s timeout) on `_final_ack`, strictly after all frame writes, and
returns true even when that wait times out (the result does not depend
on whether the final ack arrived); an animated (GIF) send performs no
`_final_ack` wait at all and also returns true. -/
theorem C6_final_wait (s : SessionState) (e : Env) (png gif : List Nat)
    (hguard : (ensure_connected s e).2 = true) (hfault : e.faultAt = none) :
    ((send_image s e png).2.1
        = ((send_image s e png).2.1.dropLast ++ [Action.waitFinal 10 e.finalAck])
      ∧ (send_image s e png).2.1.dropLast.countP isWaitFinal = 0
      ∧ (send_image s e png).2.2 = true)
    ∧ ((send_gif s e gif).2.1.countP isWaitFinal = 0
      ∧ (send_gif s e gif).2.2 = true) := by
  have hok := send_payloads_none_ok e hfault (build_image_payloads png)
  have hsh := send_image_ok_shape s e png hguard hok
  have hpre : ((if (ensure_connected s e).1.diy_mode_active then ([] : List Action)
        else [Action.write diy_cmd true, Action.sleep 3])
      ++ (send_payloads e (build_image_payloads png)).1).countP isWaitFinal = 0 := by
    rw [List.countP_append]
    have h1 : (if (ensure_connected s e).1.diy_mode_active then ([] : List Action)
        else [Action.write diy_cmd true, Action.sleep 3]).countP isWaitFinal = 0 := by
      split <;> rfl
    rw [h1, send_payloads_countP isWaitFinal (fun _ => rfl) (fun _ _ => rfl)
      (fun _ => rfl) e (build_image_payloads png)]
  have htr : (send_image s e png).2.1.dropLast
      = (if (ensure_connected s e).1.diy_mode_active then ([] : List Action)
          else [Action.write diy_cmd true, Action.sleep 3])
        ++ (send_payloads e (build_image_payloads png)).1 := by
    rw [hsh.1, List.dropLast_concat]
  refine ⟨⟨?_, ?_, hsh.2⟩, ?_, ?_⟩
  · rw [htr, hsh.1]
  · rw [htr]
    exact hpre
  · have hgok := send_payloads_none_ok e hfault (build_gif_payloads gif)
    have hg : (send_gif s e gif).2.1 = (send_payloads e (build_gif_payloads gif)).1 := by
      simp [send_gif, hguard, hgok]
    rw [hg]
    exact send_payloads_countP isWaitFinal (fun _ => rfl) (fun _ _ => rfl)
      (fun _ => rfl) e (build_gif_payloads gif)
  · have hgok := send_payloads_none_ok e hfault (build_gif_payloads gif)
    simp [send_gif, hguard, hgok]

/-- C6 counterexample: a successful animated (GIF) send — connection
guard passed, all frames written, result true — performs no
`_final_ack` (sequence-complete) wait at all: `send_gif` returns the
`_send_payloads` result directly, so the claimed "waits exactly once
on the sequence_complete signal" is false for animation sends. -/
theorem C6_counterexample :
    (send_gif ⟨true, true⟩ ⟨true, true, 20, [], false, none, true⟩
        [1, 2, 3]).2.1.countP isWaitFinal = 0
    ∧ (send_gif ⟨true, true⟩ ⟨true, true, 20, [], false, none, true⟩
        [1, 2, 3]).2.2 = true := by
  constructor
  · decide
  · decide

theorem C6_final_wait_witness :
    ((ensure_connected ⟨false, false⟩ ⟨false, true, 20, [], false, none, true⟩).2 = true
      ∧ (⟨false, true, 20, [], false, none, true⟩ : Env).faultAt = none)
    ∧ (send_gif ⟨false, false⟩ ⟨false, true, 20, [], false, none, true⟩
        [9, 9]).2.1.countP isWaitFinal = 0 :=
  ⟨⟨by decide, rfl⟩,
    (C6_final_wait ⟨false, false⟩ ⟨false, true, 20, [], false, none, true⟩
      [1] [9, 9] (by decide) rfl).2.1⟩

theorem send_image_guard_fail (s : SessionState) (e : Env) (png : List Nat)
    (hg : (ensure_connected s e).2 = false) :
    send_image s e png = ((ensure_connected s e).1, [], false) := by
  simp [send_image, hg]

theorem send_image_diy_flag (s : SessionState) (e : Env) (png : List Nat) :
    (send_image s e png).1.diy_mode_active
      = (s.diy_mode_active || (ensure_connected s e).2) := by
  cases hg : (ensure_connected s e).2 with
  | false =>
      rw [send_image_guard_fail s e png hg]
      simp [ensure_connected_diy]
  | true =>
      have hdiy := ensure_connected_diy s e
      cases hsd : s.diy_mode_active with
      | true =>
          have hd : (ensure_connected s e).1.diy_mode_active = true := by
            rw [hdiy, hsd]
          cases herr : (send_payloads e (build_image_payloads png)).2 with
          | error u => simp [send_image, hg, herr, hd]
          | ok b => simp [send_image, hg, herr, hd]
      | false =>
          have hd : (ensure_connected s e).1.diy_mode_active = false := by
            rw [hdiy, hsd]
          cases herr : (send_payloads e (build_image_payloads png)).2 with
          | error u => simp [send_image, hg, herr, hd]
          | ok b => simp [send_image, hg, herr, hd]

theorem send_image_diy_count (s : SessionState) (e : Env) (png : List Nat) :
    (send_image s e png).2.1.countP isDiyWrite
      = (if (ensure_connected s e).2 && !s.diy_mode_active then 1 else 0) := by
  cases hg : (ensure_connected s e).2 with
  | false =>
      rw [send_image_guard_fail s e png hg]
      simp
  | true =>
      have hdiy := ensure_connected_diy s e
      have hpay : (send_payloads e (build_image_payloads png)).1.countP isDiyWrite = 0 :=
        send_payloads_countP isDiyWrite isDiyWrite_write_false
          (fun _ _ => rfl) (fun _ => rfl) e _
      cases hsd : s.diy_mode_active with
      | true =>
          have hd : (ensure_connected s e).1.diy_mode_active = true := by
            rw [hdiy, hsd]
          cases herr : (send_payloads e (build_image_payloads png)).2 with
          | error u => simp [send_image, hg, herr, hd, hpay]
          | ok b => simp [send_image, hg, herr, hd, List.countP_append, hpay, isDiyWrite]
      | false =>
          have hd : (ensure_connected s e).1.diy_mode_active = false := by
            rw [hdiy, hsd]
          cases herr : (send_payloads e (build_image_payloads png)).2 with
          | error u =>
              simp [send_image, hg, herr, hd, List.countP_append, hpay,
                List.countP_cons, isDiyWrite]
          | ok b =>
              simp [send_image, hg, herr, hd, List.countP_append, hpay,
                List.countP_cons, isDiyWrite]

theorem send_image_diy_head (s : SessionState) (e : Env) (png : List Nat)
    (hg : (ensure_connected s e).2 = true) (hsd : s.diy_mode_active = false) :
    (send_image s e png).2.1.head? = some (Action.write diy_cmd true)
    ∧ (send_image s e png).2.1.tail.head? = some (Action.sleep 3) := by
  have hd : (ensure_connected s e).1.diy_mode_active = false := by
    rw [ensure_connected_diy, hsd]
  cases herr : (send_payloads e (build_image_payloads png)).2 with
  | error u => constructor <;> simp [send_image, hg, herr, hd]
  | ok b => constructor <;> simp [send_image, hg, herr, hd]

theorem runSession_cons (s : SessionState) (e : Env) (png : List Nat)
    (rest : List (Env × List Nat)) :
    runSession s ((e, png) :: rest)
      = (⟨(send_image s e png).2.1, (send_image s e png).2.2,
            (ensure_connected s e).2⟩
          :: (runSession (send_image s e png).1 rest).1,
         (runSession (send_image s e png).1 rest).2) := rfl

theorem runSession_diyOnce (calls : List (Env × List Nat)) : ∀ s : SessionState,
    diyOnce s.diy_mode_active (runSession s calls).1 = true
    ∧ (runSession s calls).2.diy_mode_active
      = (s.diy_mode_active || (runSession s calls).1.any fun o => o.passed) := by
  induction calls with
  | nil =>
      intro s
      cases hb : s.diy_mode_active <;> simp [runSession, diyOnce, hb]
  | cons c rest ih =>
      obtain ⟨e, png⟩ := c
      intro s
      rw [runSession_cons]
      obtain ⟨ih1, ih2⟩ := ih (send_image s e png).1
      have hflag := send_image_diy_flag s e png
      have hcount := send_image_diy_count s e png
      cases hsd : s.diy_mode_active with
      | true =>
          rw [hsd, Bool.true_or] at hflag
          rw [hflag] at ih1
          constructor
          · simp [diyOnce, hcount, hsd, ih1]
          · rw [ih2, hflag]
            simp
      | false =>
          rw [hsd, Bool.false_or] at hflag
          cases hg : (ensure_connected s e).2 with
          | true =>
              rw [hg] at hflag
              rw [hflag] at ih1
              have hhead := send_image_diy_head s e png hg hsd
              constructor
              · simp [diyOnce, hg, hcount, hsd, ih1, hhead.1, hhead.2]
              · rw [ih2, hflag]
                simp [hg]
          | false =>
              rw [hg] at hflag
              rw [hflag] at ih1
              constructor
              · simp [diyOnce, hg, hcount, hsd, ih1]
              · rw [ih2, hflag]
                simp [hg]

/-- C8: in every session started with the DIY-mode flag clear, the
once-only discipline holds over any sequence of `send_image` calls:
calls that fail the connection guard issue no DIY-enable write; the
first call that passes the guard issues it exactly once, as the very
first transport action of that call (hence before any frame write),
immediately followed by the fixed 0.3 s settle sleep; every later call
issues it zero times; and the flag ends true exactly when some call
passed the guard (it is set by the first passing call and never reset
within the session). -/
theorem C8_diy_once (s : SessionState) (calls : List (Env × List Nat))
    (hs : s.diy_mode_active = false) :
    diyOnce false (runSession s calls).1 = true
    ∧ (runSession s calls).2.diy_mode_active
      = (runSession s calls).1.any fun o => o.passed := by
  obtain ⟨h1, h2⟩ := runSession_diyOnce calls s
  rw [hs] at h1 h2
  rw [Bool.false_or] at h2
  exact ⟨h1, h2⟩

theorem C8_diy_once_witness :
    (⟨false, false⟩ : SessionState).diy_mode_active = false
    ∧ diyOnce false (runSession ⟨false, false⟩
        [(⟨false, true, 20, [], false, none, true⟩, [1, 2]),
         (⟨false, true, 20, [], false, none, true⟩, [3])]).1 = true :=
  ⟨rfl,
    (C8_diy_once ⟨false, false⟩
      [(⟨false, true, 20, [], false, none, true⟩, [1, 2]),
       (⟨false, true, 20, [], false, none, true⟩, [3])] rfl).1⟩

end LedClock
